import Mathlib

/-!
Verification development for the conditional plug-stat resolver and the
plug-description composer (`stats-conditional.ts`).

The first part embeds the stat activity-rule ladder, the investment-stat
merger and the elaboration pipeline; the second part embeds the
description composer (`getPerkDescriptions`, `usePlugDescriptions`,
`stripUsedStrings`).  Logging calls are embedded as explicit lists of
`LogEvent` values returned next to each function's result.
-/

/-- Log calls in the source are modelled as explicit events. -/
inductive LogEvent
  | warnUnknownStatEffect
  | warnMissingClassType
  | warnMissingItem
  | warnBipodWorkaround
  | infoConsolidating
  | warnDupMismatch
deriving DecidableEq

/-- Player classes, from the external enum (Titan, Hunter, Warlock, Unknown). -/
inductive DestinyClass
  | titan
  | hunter
  | warlock
  | unknown
deriving DecidableEq

/-- Perk visibility, from the external enum (Visible, Disabled, Hidden). -/
inductive ItemPerkVisibility
  | visible
  | disabled
  | hidden
deriving DecidableEq

/-- `PlugStatActivityRule` from `item-types`: the tagged activity condition.
The always-active case is represented by `none` at use sites
(`Option PlugStatActivityRule`), mirroring the source's `undefined`. -/
inductive PlugStatActivityRule
  | never
  | classType (classType : DestinyClass)
  | adeptWeapon
  | masterwork
  | enhancedIntrinsic
deriving DecidableEq

/-- One raw investment-stat entry of a definition. -/
structure DestinyItemInvestmentStatDefinition where
  statTypeHash : Nat
  value : Int
  isConditionallyActive : Bool
deriving DecidableEq

/-- Display text of a definition or sandbox perk. -/
structure DisplayProperties where
  name : String
  description : String
deriving DecidableEq

/-- A perk reference held by a plug definition. -/
structure DestinyItemPerkEntry where
  perkHash : Nat
  perkVisibility : ItemPerkVisibility
  requirementDisplayString : String
deriving DecidableEq

/-- The manifest item definition, restricted to the fields this code reads.
`plugCategoryHash` stands for `plug?.plugCategoryHash` (absent plug block is
`none`). -/
structure DestinyInventoryItemDefinition where
  hash : Nat
  displayProperties : DisplayProperties
  traitHashes : Option (List Nat)
  itemCategoryHashes : Option (List Nat)
  plugCategoryHash : Option Nat
  investmentStats : List DestinyItemInvestmentStatDefinition
  perks : List DestinyItemPerkEntry
deriving DecidableEq

/-- The concrete item instance fields read by `isPlugStatActive`.
`craftedLevel` models `craftedInfo?.level`. -/
structure DimItem where
  hash : Nat
  classType : DestinyClass
  masterwork : Bool
  craftedLevel : Option Nat
deriving DecidableEq

/-- `DimPlugInvestmentStat`: an elaborated stat entry. -/
structure DimPlugInvestmentStat where
  activityRule : Option PlugStatActivityRule
  statTypeHash : Nat
  value : Int
deriving DecidableEq

/-- A sandbox perk definition (only its display text is read). -/
structure SandboxPerkDefinition where
  displayProperties : DisplayProperties
deriving DecidableEq

/-- The manifest lookup collaborator: total keyed lookups, as assumed by the
source (a missing key is the collaborator's hard failure, out of scope). -/
structure D2ManifestDefinitions where
  inventoryItem : Nat → DestinyInventoryItemDefinition
  sandboxPerk : Nat → SandboxPerkDefinition

/-- Modelled from the spec: the fixed "exotic catalyst" trait tag
(`TraitHashes.ItemExoticCatalyst`); the numeric value lives outside the
analyzed sources, so it is modelled as an opaque fixed constant. -/
def itemExoticCatalystTrait : Nat := 900001

/-- Modelled from the spec: the "weapon enhancer" plug category
(`PlugCategoryHashes.CraftingPlugsWeaponsModsEnhancers`), opaque fixed
constant. -/
def craftingEnhancersPlugCategory : Nat := 900002

/-- Modelled from the spec: the first fixed "elemental capacitor" identifier
(`ModsWithConditionalStats.ElementalCapacitor`), opaque fixed constant. -/
def elementalCapacitorHash : Nat := 900101

/-- Modelled from the spec: the second fixed "elemental capacitor" identifier
(`ModsWithConditionalStats.EnhancedElementalCapacitor`), opaque fixed
constant. -/
def enhancedElementalCapacitorHash : Nat := 900102

/-- Modelled from the spec: the "Echo of Persistence" identifier
(`ModsWithConditionalStats.EchoOfPersistence`), opaque fixed constant. -/
def echoOfPersistenceHash : Nat := 900103

/-- Modelled from the spec: the "Spark of Focus" identifier
(`ModsWithConditionalStats.SparkOfFocus`), opaque fixed constant. -/
def sparkOfFocusHash : Nat := 900104

/-- Modelled from the spec: the "Charge Harvester" identifier
(`modsWithConditionalStats.chargeHarvester`), opaque fixed constant. -/
def chargeHarvesterHash : Nat := 900105

/-- Modelled from the spec: the armor-mods item category
(`ItemCategoryHashes.ArmorMods`), opaque fixed constant. -/
def armorModsCategoryHash : Nat := 900003

/-- `StatHashes.Mobility`. -/
def statMobility : Nat := 2996146975

/-- `StatHashes.Resilience`. -/
def statResilience : Nat := 392767087

/-- `StatHashes.Recovery`. -/
def statRecovery : Nat := 1943323491

/-- The hardcoded "Bipod" perk identifier, taken directly from the source. -/
def bipodPerkHash : Nat := 2282937672

/-- Modelled from the spec: the static allow-list
`data/d2/adept-weapon-hashes.json`; contents are external data, modelled as a
fixed representative list. -/
def adeptWeaponHashes : List Nat := [910001, 910002]

/-- Modelled from the spec: the static allow-list
`data/d2/masterworks-with-cond-stats.json`, fixed representative list. -/
def masterworksWithCondStats : List Nat := [920001]

/-- Modelled from the spec: the static set
`data/d2/crafting-enhanced-intrinsics`, fixed representative list. -/
def enhancedIntrinsics : List Nat := [930001]

/-- The fixed stat-to-class table used by the class-ability-drain branch. -/
def statGovernedClass (statTypeHash : Nat) : Option DestinyClass :=
  if statTypeHash = statMobility then some DestinyClass.hunter
  else if statTypeHash = statResilience then some DestinyClass.titan
  else if statTypeHash = statRecovery then some DestinyClass.warlock
  else none

/-- `getPlugInvestmentStatActivityRule`: the priority ladder deciding under
which condition a stat is active.  `none` in the first component means
always active; the second component collects log events. -/
def getPlugInvestmentStatActivityRule (itemDef : DestinyInventoryItemDefinition)
    (stat : DestinyItemInvestmentStatDefinition) :
    Option PlugStatActivityRule × List LogEvent :=
  if itemExoticCatalystTrait ∈ itemDef.traitHashes.getD [] then
    (some PlugStatActivityRule.masterwork, [])
  else if !stat.isConditionallyActive then
    (none, [])
  else if itemDef.plugCategoryHash = some craftingEnhancersPlugCategory then
    (some PlugStatActivityRule.never, [])
  else if itemDef.hash = elementalCapacitorHash ∨
      itemDef.hash = enhancedElementalCapacitorHash then
    (some PlugStatActivityRule.never, [])
  else if itemDef.hash = echoOfPersistenceHash ∨ itemDef.hash = sparkOfFocusHash then
    match statGovernedClass stat.statTypeHash with
    | none => (none, [LogEvent.warnUnknownStatEffect])
    | some c => (some (PlugStatActivityRule.classType c), [])
  else if itemDef.hash ∈ masterworksWithCondStats then
    (some PlugStatActivityRule.adeptWeapon, [])
  else if itemDef.hash ∈ enhancedIntrinsics then
    (some PlugStatActivityRule.enhancedIntrinsic, [])
  else
    (none, [])

/-- `isPlugStatActive`: evaluate a resolved rule against an optional item and
an optional explicit class type. -/
def isPlugStatActive (rule : Option PlugStatActivityRule) (item : Option DimItem)
    (classType : Option DestinyClass) : Bool × List LogEvent :=
  match rule with
  | none => (true, [])
  | some PlugStatActivityRule.never => (false, [])
  | some (PlugStatActivityRule.classType ruleClass) =>
    match classType.orElse (fun _ => item.map (fun it => it.classType)) with
    | none => (true, [LogEvent.warnMissingClassType])
    | some c => (decide (c = ruleClass), [])
  | some PlugStatActivityRule.adeptWeapon =>
    match item with
    | none => (true, [LogEvent.warnMissingItem])
    | some it => (decide (it.hash ∈ adeptWeaponHashes), [])
  | some PlugStatActivityRule.masterwork =>
    match item with
    | none => (true, [LogEvent.warnMissingItem])
    | some it => (it.masterwork, [])
  | some PlugStatActivityRule.enhancedIntrinsic =>
    match item with
    | none => (true, [LogEvent.warnMissingItem])
    | some it =>
      (decide (it.craftedLevel.getD 0 ≥ 20) || decide (it.hash ∈ adeptWeaponHashes), [])

/-- One step of the merge loop in `getPlugInvestmentStats`: add `s` into the
first entry of `processed` with the same stat type (summing values), or
append it at the end. -/
def addStatInto (processed : List DestinyItemInvestmentStatDefinition)
    (s : DestinyItemInvestmentStatDefinition) :
    List DestinyItemInvestmentStatDefinition :=
  match processed with
  | [] => [s]
  | p :: rest =>
    if p.statTypeHash = s.statTypeHash then
      { p with value := p.value + s.value } :: rest
    else
      p :: addStatInto rest s

/-- `getPlugInvestmentStats`: merge raw entries sharing a stat type. -/
def getPlugInvestmentStats
    (investmentStats : List DestinyItemInvestmentStatDefinition) :
    List DestinyItemInvestmentStatDefinition :=
  investmentStats.foldl addStatInto []

/-- Helper of `uniqBy` (the `app/utils/collections` utility): keep the first
element for each key. -/
def uniqByAux {α β : Type} [DecidableEq β] (key : α → β) :
    List β → List α → List α
  | _, [] => []
  | seen, a :: rest =>
    if key a ∈ seen then uniqByAux key seen rest
    else a :: uniqByAux key (key a :: seen) rest

/-- `uniqBy` from `app/utils/collections`: first occurrence per key wins. -/
def uniqBy {α β : Type} [DecidableEq β] (l : List α) (key : α → β) : List α :=
  uniqByAux key [] l

/-- Resolve one merged entry: attach its activity rule, dropping it when the
rule is never-active (the body of the `filterMap` callback, after the Bipod
special case). -/
def resolveAndFilterStat (itemDef : DestinyInventoryItemDefinition)
    (stat : DestinyItemInvestmentStatDefinition) :
    Option DimPlugInvestmentStat × List LogEvent :=
  let r := getPlugInvestmentStatActivityRule itemDef stat
  if r.1 = some PlugStatActivityRule.never then (none, r.2)
  else
    (some { activityRule := r.1, statTypeHash := stat.statTypeHash,
            value := stat.value }, r.2)

/-- The full `filterMap` callback, including the Bipod workaround.  `len` is
the merged list's length, `i` the entry's index. -/
def processEntry (itemDef : DestinyInventoryItemDefinition) (len i : Nat)
    (stat : DestinyItemInvestmentStatDefinition) :
    Option DimPlugInvestmentStat × List LogEvent :=
  if itemDef.hash = bipodPerkHash then
    if len = 4 then
      if 2 ≤ i then (none, [])
      else resolveAndFilterStat itemDef stat
    else
      let r := resolveAndFilterStat itemDef stat
      (r.1, LogEvent.warnBipodWorkaround :: r.2)
  else resolveAndFilterStat itemDef stat

/-- The `filterMap` over the merged entries, carrying the running index. -/
def processFrom (itemDef : DestinyInventoryItemDefinition) (len : Nat) :
    Nat → List DestinyItemInvestmentStatDefinition →
    List DimPlugInvestmentStat × List LogEvent
  | _, [] => ([], [])
  | i, stat :: rest =>
    let r := processEntry itemDef len i stat
    let tailRes := processFrom itemDef len (i + 1) rest
    (r.1.toList ++ tailRes.1, r.2 ++ tailRes.2)

/-- The resolved entries without the Bipod workaround: used to state how the
pipeline relates to plain per-entry resolution. -/
def resolveFilteredList (itemDef : DestinyInventoryItemDefinition)
    (l : List DestinyItemInvestmentStatDefinition) : List DimPlugInvestmentStat :=
  l.filterMap (fun s => (resolveAndFilterStat itemDef s).1)

/-- The rule-tag comparison `activityRule?.rule === activityRule?.rule` of the
consolidation pass: only the variant tag is compared. -/
def ruleTag : Option PlugStatActivityRule → Option Nat
  | none => none
  | some PlugStatActivityRule.never => some 0
  | some (PlugStatActivityRule.classType _) => some 1
  | some PlugStatActivityRule.adeptWeapon => some 2
  | some PlugStatActivityRule.masterwork => some 3
  | some PlugStatActivityRule.enhancedIntrinsic => some 4

/-- Inner loop of the consolidation pass: `idx2` walks down to `idx + 1`,
merging entries with equal stat type and equal rule tag, otherwise logging
the unhandled-duplicate warning. -/
def consolidateInner (idx : Nat) (stats : List DimPlugInvestmentStat)
    (idx2 : Nat) : List DimPlugInvestmentStat × List LogEvent :=
  if _h : idx2 ≤ idx then (stats, [])
  else
    let step : List DimPlugInvestmentStat × List LogEvent :=
      match stats.get? idx, stats.get? idx2 with
      | some s1, some s2 =>
        if s1.statTypeHash = s2.statTypeHash then
          if ruleTag s1.activityRule = ruleTag s2.activityRule then
            ((stats.set idx { s1 with value := s1.value + s2.value }).eraseIdx idx2,
              [LogEvent.infoConsolidating])
          else (stats, [LogEvent.warnDupMismatch])
        else (stats, [])
      | _, _ => (stats, [])
    let tailRes := consolidateInner idx step.1 (idx2 - 1)
    (tailRes.1, step.2 ++ tailRes.2)
termination_by idx2
decreasing_by omega

/-- Outer loop of the consolidation pass: fuel `k` stands for index `k - 1`;
each iteration re-reads the current list length for the inner loop, as the
source does. -/
def consolidateOuter : List DimPlugInvestmentStat → Nat →
    List DimPlugInvestmentStat × List LogEvent
  | stats, 0 => (stats, [])
  | stats, k + 1 =>
    let step := consolidateInner k stats (stats.length - 1)
    let tailRes := consolidateOuter step.1 k
    (tailRes.1, step.2 ++ tailRes.2)

/-- The duplicate-consolidation pass of `mapAndFilterInvestmentStats`. -/
def consolidate (stats : List DimPlugInvestmentStat) :
    List DimPlugInvestmentStat × List LogEvent :=
  consolidateOuter stats (stats.length - 1)

/-- The fast-path guard: no exotic-catalyst trait and no conditionally active
merged entry. -/
def fastPathEligible (itemDef : DestinyInventoryItemDefinition) : Bool :=
  !(decide (itemExoticCatalystTrait ∈ itemDef.traitHashes.getD [])) &&
    (getPlugInvestmentStats itemDef.investmentStats).all
      (fun s => !s.isConditionallyActive)

/-- The `hasDupes` local: assigned only inside the fast-path branch (`none`
models the variable staying `undefined`). -/
def hasDupesComputed (itemDef : DestinyInventoryItemDefinition) : Option Bool :=
  if fastPathEligible itemDef then
    some (decide
      ((uniqBy (getPlugInvestmentStats itemDef.investmentStats)
          (fun s => s.statTypeHash)).length ≠
        (getPlugInvestmentStats itemDef.investmentStats).length))
  else none

/-- The fast path returns the merged raw entries unchanged; structurally they
are read downstream as elaborated entries with no activity rule, which this
coercion makes explicit. -/
def toPlainStat (s : DestinyItemInvestmentStatDefinition) : DimPlugInvestmentStat :=
  { activityRule := none, statTypeHash := s.statTypeHash, value := s.value }

/-- `mapAndFilterInvestmentStats`: merge, fast path, per-entry elaboration
with the Bipod workaround, and the conditional consolidation pass.  The
memoization wrapper is identity on values and is not modelled. -/
def mapAndFilterInvestmentStats (itemDef : DestinyInventoryItemDefinition) :
    List DimPlugInvestmentStat × List LogEvent :=
  let investmentStats := getPlugInvestmentStats itemDef.investmentStats
  match hasDupesComputed itemDef with
  | some false => (investmentStats.map toPlainStat, [])
  | hd =>
    let processed := processFrom itemDef investmentStats.length 0 investmentStats
    let final := if hd = some true then consolidate processed.1 else (processed.1, [])
    (final.1, processed.2 ++ final.2)

/-- One content piece of a community-insight description line; only the
optional `text` field is read by this code. -/
structure LinesContent where
  text : Option String
deriving DecidableEq

/-- One community-insight description line with its optional content list. -/
structure Line where
  lineText : Option (List LinesContent)
deriving DecidableEq

/-- A community (Clarity) perk entry: identifying hash, the stat-only marker
and the simple description, restricted to what this code reads. -/
structure Perk where
  hash : Nat
  statOnly : Bool
  simpleDescription : Option (List Line)
deriving DecidableEq

/-- The three-way description display preference setting. -/
inductive DescriptionsToDisplay
  | bungie
  | community
  | both
deriving DecidableEq

/-- `DimPlugPerkDescription`: one composed text block. -/
structure DimPlugPerkDescription where
  perkHash : Nat
  name : Option String
  description : Option String
  requirement : Option String
deriving DecidableEq

/-- `DimPlugDescriptions`: the composed result. -/
structure DimPlugDescriptions where
  perks : List DimPlugPerkDescription
  communityInsight : Option Perk
deriving DecidableEq

/-- JS string truthiness: the empty string stands for a missing value
(`s || undefined`). -/
def strOpt (s : String) : Option String := if s = "" then none else some s

/-- The running state of `getPerkDescriptions`: the result list and the
strings already used within this plug. -/
structure DescState where
  results : List DimPlugPerkDescription
  usedStrings : List String
deriving DecidableEq

/-- Claim a string if it has not been used yet: returns the string to display
(or `none` when suppressed) and the updated used-string list. -/
def takeUnused (used : List String) (o : Option String) :
    Option String × List String :=
  match o with
  | none => (none, used)
  | some d => if d ∈ used then (none, used) else (some d, used ++ [d])

/-- The per-perk step of `addPerkDescriptions`: skip hidden perks, deduplicate
the sandbox perk's description and the perk's requirement string, and push an
entry when either survives. -/
def addPerkEntry (plugName : String) (defs : D2ManifestDefinitions)
    (st : DescState) (perk : DestinyItemPerkEntry) : DescState :=
  if perk.perkVisibility = ItemPerkVisibility.hidden then st
  else
    let sandboxPerk := defs.sandboxPerk perk.perkHash
    let perkName := sandboxPerk.displayProperties.name
    let d1 := takeUnused st.usedStrings (strOpt sandboxPerk.displayProperties.description)
    let d2 := takeUnused d1.2 (strOpt perk.requirementDisplayString)
    if d1.1.isSome ∨ d2.1.isSome then
      { results := st.results ++
          [{ perkHash := perk.perkHash,
             name := if perkName ≠ "" ∧ perkName ≠ plugName then some perkName else none,
             description := d1.1, requirement := d2.1 }],
        usedStrings := d2.2 }
    else { st with usedStrings := d2.2 }

/-- The perk list walked by `addPerkDescriptions`: the plug's perks, plus the
borrowed Charge Harvester perk (index 1) for the Echo of Persistence hack. -/
def effectivePerks (plug : DestinyInventoryItemDefinition)
    (defs : D2ManifestDefinitions) : List DestinyItemPerkEntry :=
  plug.perks ++
    (if plug.hash = echoOfPersistenceHash then
      ((defs.inventoryItem chargeHarvesterHash).perks.get? 1).toList
    else [])

/-- `addPerkDescriptions` of `getPerkDescriptions`. -/
def addPerkDescriptions (plug : DestinyInventoryItemDefinition)
    (defs : D2ManifestDefinitions) (st : DescState) : DescState :=
  (effectivePerks plug defs).foldl (addPerkEntry plug.displayProperties.name defs) st

/-- `addDescriptionAsRequirement`: push the plug description as a requirement
footnote when present and unused. -/
def addDescriptionAsRequirement (plugDescription : Option String)
    (st : DescState) : DescState :=
  match plugDescription with
  | none => st
  | some d =>
    if d ∈ st.usedStrings then st
    else
      { results := st.results ++
          [{ perkHash := 0, name := none, description := none, requirement := some d }],
        usedStrings := st.usedStrings ++ [d] }

/-- `addDescriptionAsFunctionality`: push the plug description as the
functional text when present and unused. -/
def addDescriptionAsFunctionality (plugDescription : Option String)
    (st : DescState) : DescState :=
  match plugDescription with
  | none => st
  | some d =>
    if d ∈ st.usedStrings then st
    else
      { results := st.results ++
          [{ perkHash := 0, name := none, description := some d, requirement := none }],
        usedStrings := st.usedStrings ++ [d] }

/-- The final fallback of `getPerkDescriptions`: when nothing was produced and
the plug has perks, synthesize an entry from the first perk. -/
def firstPerkFallback (plug : DestinyInventoryItemDefinition)
    (defs : D2ManifestDefinitions) (st : DescState) : DescState :=
  if st.results = [] then
    match plug.perks with
    | [] => st
    | firstPerk :: _ =>
      let sandboxPerk := defs.sandboxPerk firstPerk.perkHash
      let perkName := sandboxPerk.displayProperties.name
      let d1 := takeUnused st.usedStrings (strOpt sandboxPerk.displayProperties.description)
      let d2 := takeUnused d1.2 (strOpt firstPerk.requirementDisplayString)
      if d1.1.isSome ∨ d2.1.isSome then
        { results := st.results ++
            [{ perkHash := firstPerk.perkHash,
               name := if perkName ≠ "" ∧ perkName ≠ plug.displayProperties.name
                 then some perkName else none,
               description := d1.1, requirement := d2.1 }],
          usedStrings := d2.2 }
      else { st with usedStrings := d2.2 }
  else st

/-- `getPerkDescriptions`: compose the official text blocks for a plug and
collect the set (here: list) of used strings. -/
def getPerkDescriptions (plug : DestinyInventoryItemDefinition)
    (defs : D2ManifestDefinitions) : List DimPlugPerkDescription × List String :=
  let plugDescription := strOpt plug.displayProperties.description
  let st0 : DescState := { results := [], usedStrings := [] }
  let st1 :=
    if itemExoticCatalystTrait ∈ plug.traitHashes.getD [] then
      addDescriptionAsRequirement plugDescription (addPerkDescriptions plug defs st0)
    else if armorModsCategoryHash ∈ plug.itemCategoryHashes.getD [] then
      let s := addPerkDescriptions plug defs st0
      if s.results ≠ [] then addDescriptionAsRequirement plugDescription s
      else addDescriptionAsFunctionality plugDescription s
    else
      match plugDescription with
      | some _ => addDescriptionAsFunctionality plugDescription st0
      | none => addPerkDescriptions plug defs st0
  let st2 := firstPerkFallback plug defs st1
  (st2.results, st2.usedStrings)

/-- The content filter of `stripUsedStrings`: keep a content piece when its
text is missing or empty, or not among the used strings. -/
def keepContent (used : List String) (c : LinesContent) : Bool :=
  match c.text with
  | none => true
  | some t => decide (t = "") || !(decide (t ∈ used))

/-- Strip one line: filter its contents when a content list is present. -/
def stripLine (used : List String) (line : Line) : Line :=
  match line.lineText with
  | none => line
  | some cs => { line with lineText := some (cs.filter (keepContent used)) }

/-- `stripUsedStrings`: remove used text contents from the community insight;
return `none` when no line retains any content. -/
def stripUsedStrings (communityInsight : Perk) (used : List String) : Option Perk :=
  match communityInsight.simpleDescription with
  | none => none
  | some lines =>
    let stripped := lines.map (stripLine used)
    if stripped.any (fun line => !(line.lineText.getD []).isEmpty) then
      some { communityInsight with simpleDescription := some stripped }
    else none

/-- The `allClarityDescriptions?.[plug.hash]` lookup. -/
def clarityLookup (all : Option (Nat → Option Perk)) (hash : Nat) : Option Perk :=
  match all with
  | none => none
  | some f => f hash

/-- `usePlugDescriptions`: decide which text sources to show.  The feature
flag and the display preference are passed as inputs; the Redux selectors are
the identity on these already-resolved values. -/
def usePlugDescriptions (clarityFeature : Bool)
    (descriptionsToDisplay : DescriptionsToDisplay)
    (defs : Option D2ManifestDefinitions)
    (allClarityDescriptions : Option (Nat → Option Perk))
    (plug : Option DestinyInventoryItemDefinition) : DimPlugDescriptions :=
  match plug, defs with
  | some plug, some defs =>
    let showBungieDescription :=
      !clarityFeature || decide (descriptionsToDisplay ≠ DescriptionsToDisplay.community)
    let showCommunityDescription :=
      clarityFeature && decide (descriptionsToDisplay ≠ DescriptionsToDisplay.bungie)
    let showCommunityDescriptionOnly :=
      clarityFeature && decide (descriptionsToDisplay = DescriptionsToDisplay.community)
    let pd := getPerkDescriptions plug defs
    let communityInsight : Option Perk :=
      if showCommunityDescription then
        match clarityLookup allClarityDescriptions plug.hash with
        | none => none
        | some clarityPerk =>
          if !clarityPerk.statOnly then
            match stripUsedStrings clarityPerk pd.2 with
            | some stripped =>
              if showBungieDescription then some stripped else some clarityPerk
            | none => none
          else none
      else none
    let resultPerks :=
      if showBungieDescription ||
          (showCommunityDescriptionOnly && communityInsight.isNone) then pd.1
      else []
    { perks := resultPerks, communityInsight := communityInsight }
  | _, _ => { perks := [], communityInsight := none }

/-- Concrete input: an elemental-capacitor definition with no trait tags. -/
def c1CapacitorDef : DestinyInventoryItemDefinition :=
  { hash := elementalCapacitorHash, displayProperties := ⟨"Elemental Capacitor", ""⟩,
    traitHashes := none, itemCategoryHashes := none, plugCategoryHash := none,
    investmentStats := [], perks := [] }

/-- Concrete input: a definition whose raw stats duplicate one stat type with
different conditional flags, and whose identifier is in the adept-masterwork
allow-list, so the two raw entries would resolve to different rules. -/
def c2DupDef : DestinyInventoryItemDefinition :=
  { hash := 920001, displayProperties := ⟨"Adept Masterwork", ""⟩,
    traitHashes := none, itemCategoryHashes := none, plugCategoryHash := none,
    investmentStats := [⟨100, 5, false⟩, ⟨100, 7, true⟩], perks := [] }

/-- Concrete input: a definition carrying the exotic-catalyst trait. -/
def c3CatalystDef : DestinyInventoryItemDefinition :=
  { hash := 777, displayProperties := ⟨"Catalyst", ""⟩,
    traitHashes := some [itemExoticCatalystTrait], itemCategoryHashes := none,
    plugCategoryHash := none, investmentStats := [⟨100, 3, false⟩], perks := [] }

/-- Concrete input: a plain definition with two raw entries of one stat type
carrying values 5 and -3. -/
def c4PlainDef : DestinyInventoryItemDefinition :=
  { hash := 42, displayProperties := ⟨"Perk", ""⟩,
    traitHashes := none, itemCategoryHashes := none, plugCategoryHash := none,
    investmentStats := [⟨100, 5, true⟩, ⟨100, -3, false⟩], perks := [] }

/-- Concrete input: an elemental-capacitor definition with two raw entries of
one stat type carrying values 5 and -3, both conditionally active. -/
def c4CapacitorDef : DestinyInventoryItemDefinition :=
  { hash := elementalCapacitorHash, displayProperties := ⟨"Elemental Capacitor", ""⟩,
    traitHashes := none, itemCategoryHashes := none, plugCategoryHash := none,
    investmentStats := [⟨100, 5, true⟩, ⟨100, -3, true⟩], perks := [] }

/-- Concrete input: a Bipod definition whose four merged entries are all
unconditionally active, making it eligible for the fast path. -/
def c5FastBipodDef : DestinyInventoryItemDefinition :=
  { hash := bipodPerkHash, displayProperties := ⟨"Bipod", ""⟩,
    traitHashes := none, itemCategoryHashes := none, plugCategoryHash := none,
    investmentStats := [⟨1, -25, false⟩, ⟨2, -15, false⟩, ⟨3, -30, false⟩, ⟨4, -20, false⟩],
    perks := [] }

/-- Concrete input: the Enhanced-Bipod shape, four conditionally active merged
entries. -/
def c5CondBipodDef : DestinyInventoryItemDefinition :=
  { hash := bipodPerkHash, displayProperties := ⟨"Bipod", ""⟩,
    traitHashes := none, itemCategoryHashes := none, plugCategoryHash := none,
    investmentStats := [⟨1, -25, true⟩, ⟨2, -15, true⟩, ⟨3, -30, true⟩, ⟨4, -20, true⟩],
    perks := [] }

/-- A blank manifest item, used as the default of concrete manifest lookups. -/
def emptyItemDef : DestinyInventoryItemDefinition :=
  { hash := 0, displayProperties := ⟨"", ""⟩, traitHashes := none,
    itemCategoryHashes := none, plugCategoryHash := none, investmentStats := [],
    perks := [] }

/-- Concrete manifest whose sandbox perks all read "Deals fire damage". -/
def c7Defs : D2ManifestDefinitions :=
  { inventoryItem := fun _ => emptyItemDef,
    sandboxPerk := fun _ => ⟨⟨"Firebolt", "Deals fire damage"⟩⟩ }

/-- Concrete input: an official plug with one visible perk and no own
description, so the official description strings are exactly
"Deals fire damage". -/
def c7OfficialPlug : DestinyInventoryItemDefinition :=
  { hash := 600, displayProperties := ⟨"Mod", ""⟩, traitHashes := none,
    itemCategoryHashes := none, plugCategoryHash := none, investmentStats := [],
    perks := [⟨77, ItemPerkVisibility.visible, ""⟩] }

/-- Concrete input: a community insight whose only line holds the duplicated
official text plus one content piece with no text at all. -/
def c7Insight : Perk :=
  { hash := 600, statOnly := false,
    simpleDescription := some [⟨some [⟨some "Deals fire damage"⟩, ⟨none⟩]⟩] }

/-- Concrete input: a community insight with one duplicated line and one
unique line. -/
def c7WitnessInsight : Perk :=
  { hash := 601, statOnly := false,
    simpleDescription := some [⟨some [⟨some "Deals fire damage"⟩]⟩,
      ⟨some [⟨some "Unique community note"⟩]⟩] }

/-- Concrete manifest for the community-only fallback scenario. -/
def c8Defs : D2ManifestDefinitions :=
  { inventoryItem := fun _ => emptyItemDef,
    sandboxPerk := fun _ => ⟨⟨"Perk", "Official perk text"⟩⟩ }

/-- Concrete input: an official plug with one visible perk. -/
def c8Plug : DestinyInventoryItemDefinition :=
  { hash := 700, displayProperties := ⟨"Mod", ""⟩, traitHashes := none,
    itemCategoryHashes := none, plugCategoryHash := none, investmentStats := [],
    perks := [⟨78, ItemPerkVisibility.visible, ""⟩] }

/-- Concrete manifest with blank sandbox perks. -/
def c9Defs : D2ManifestDefinitions :=
  { inventoryItem := fun _ => emptyItemDef, sandboxPerk := fun _ => ⟨⟨"", ""⟩⟩ }

/-- Concrete input: a perk-less described definition carrying both the
armor-mods category and the exotic-catalyst trait. -/
def c9CatalystArmorPlug : DestinyInventoryItemDefinition :=
  { hash := 500, displayProperties := ⟨"Mod", "Only active in raids"⟩,
    traitHashes := some [itemExoticCatalystTrait],
    itemCategoryHashes := some [armorModsCategoryHash], plugCategoryHash := none,
    investmentStats := [], perks := [] }

/-- Concrete input: a perk-less described armor-mod definition without the
exotic-catalyst trait. -/
def c9ArmorPlug : DestinyInventoryItemDefinition :=
  { hash := 500, displayProperties := ⟨"Mod", "Only active in raids"⟩,
    traitHashes := none, itemCategoryHashes := some [armorModsCategoryHash],
    plugCategoryHash := none, investmentStats := [], perks := [] }

theorem addStatInto_map_hash (l : List DestinyItemInvestmentStatDefinition)
    (s : DestinyItemInvestmentStatDefinition) :
    (addStatInto l s).map (fun x => x.statTypeHash) =
      if s.statTypeHash ∈ l.map (fun x => x.statTypeHash) then
        l.map (fun x => x.statTypeHash)
      else l.map (fun x => x.statTypeHash) ++ [s.statTypeHash] := by
  induction l with
  | nil => simp [addStatInto]
  | cons p rest ih =>
    by_cases hp : p.statTypeHash = s.statTypeHash
    · simp [addStatInto, hp]
    · have hp' : ¬s.statTypeHash = p.statTypeHash := fun h => hp h.symm
      simp only [addStatInto, if_neg hp, List.map_cons, ih, List.mem_cons, hp',
        false_or]
      split <;> simp

theorem addStatInto_nodup (l : List DestinyItemInvestmentStatDefinition)
    (s : DestinyItemInvestmentStatDefinition)
    (h : (l.map (fun x => x.statTypeHash)).Nodup) :
    ((addStatInto l s).map (fun x => x.statTypeHash)).Nodup := by
  rw [addStatInto_map_hash]
  split
  · exact h
  · next hmem => simp_all [List.nodup_append]

theorem foldl_addStatInto_nodup (l : List DestinyItemInvestmentStatDefinition) :
    ∀ acc, (acc.map (fun x => x.statTypeHash)).Nodup →
      ((l.foldl addStatInto acc).map (fun x => x.statTypeHash)).Nodup := by
  induction l with
  | nil => intro acc h; simpa using h
  | cons a rest ih => intro acc h; exact ih _ (addStatInto_nodup _ _ h)

/-- The merged investment stats never contain two entries of one stat type. -/
theorem getPlugInvestmentStats_nodup (l : List DestinyItemInvestmentStatDefinition) :
    ((getPlugInvestmentStats l).map (fun x => x.statTypeHash)).Nodup :=
  foldl_addStatInto_nodup l [] (by simp)

theorem uniqByAux_eq_self {α β : Type} [DecidableEq β] (key : α → β)
    (l : List α) :
    ∀ seen, (l.map key).Nodup → (∀ a ∈ l, key a ∉ seen) →
      uniqByAux key seen l = l := by
  induction l with
  | nil => intro seen _ _; rfl
  | cons a rest ih =>
    intro seen hn hs
    have ha : key a ∉ seen := hs a (by simp)
    rw [uniqByAux, if_neg ha]
    have hn' := hn
    rw [List.map_cons, List.nodup_cons] at hn'
    congr 1
    refine ih _ hn'.2 ?_
    intro b hb
    simp only [List.mem_cons]
    rintro (h | h)
    · exact hn'.1 (h ▸ List.mem_map_of_mem _ hb)
    · exact hs b (List.mem_cons_of_mem _ hb) h

theorem uniqBy_eq_self {α β : Type} [DecidableEq β] (l : List α) (key : α → β)
    (h : (l.map key).Nodup) : uniqBy l key = l :=
  uniqByAux_eq_self key l [] h (by simp)

/-- The `hasDupes` local can never be assigned `true`: it is computed on the
already-merged list, which has pairwise distinct stat types. -/
theorem hasDupesComputed_ne_true (itemDef : DestinyInventoryItemDefinition) :
    hasDupesComputed itemDef ≠ some true := by
  unfold hasDupesComputed
  split
  · rw [uniqBy_eq_self _ _ (getPlugInvestmentStats_nodup _)]
    simp
  · simp

theorem hasDupesComputed_of_fast (itemDef : DestinyInventoryItemDefinition)
    (h : fastPathEligible itemDef = true) : hasDupesComputed itemDef = some false := by
  unfold hasDupesComputed
  rw [if_pos h, uniqBy_eq_self _ _ (getPlugInvestmentStats_nodup _)]
  simp

theorem mapAndFilter_fast (itemDef : DestinyInventoryItemDefinition)
    (h : fastPathEligible itemDef = true) :
    mapAndFilterInvestmentStats itemDef =
      ((getPlugInvestmentStats itemDef.investmentStats).map toPlainStat, []) := by
  unfold mapAndFilterInvestmentStats
  rw [hasDupesComputed_of_fast itemDef h]

theorem mapAndFilter_full (itemDef : DestinyInventoryItemDefinition)
    (h : fastPathEligible itemDef = false) :
    mapAndFilterInvestmentStats itemDef =
      processFrom itemDef (getPlugInvestmentStats itemDef.investmentStats).length 0
        (getPlugInvestmentStats itemDef.investmentStats) := by
  unfold mapAndFilterInvestmentStats
  have hd : hasDupesComputed itemDef = none := by
    unfold hasDupesComputed
    rw [if_neg (by simp [h])]
  rw [hd]
  simp

theorem processEntry_nonbipod (itemDef : DestinyInventoryItemDefinition)
    (len i : Nat) (stat : DestinyItemInvestmentStatDefinition)
    (h : itemDef.hash ≠ bipodPerkHash) :
    processEntry itemDef len i stat = resolveAndFilterStat itemDef stat := by
  unfold processEntry
  rw [if_neg h]

theorem processFrom_stats_nonbipod (itemDef : DestinyInventoryItemDefinition)
    (len : Nat) (l : List DestinyItemInvestmentStatDefinition)
    (h : itemDef.hash ≠ bipodPerkHash) :
    ∀ i, (processFrom itemDef len i l).1 = resolveFilteredList itemDef l := by
  induction l with
  | nil => intro i; rfl
  | cons a rest ih =>
    intro i
    rw [processFrom, processEntry_nonbipod _ _ _ _ h]
    simp only [resolveFilteredList, List.filterMap_cons]
    cases hr : (resolveAndFilterStat itemDef a).1 with
    | none => simpa [hr] using ih (i + 1)
    | some r => simpa [hr] using ih (i + 1)

theorem processFrom_bipod_ne4 (itemDef : DestinyInventoryItemDefinition)
    (len : Nat) (l : List DestinyItemInvestmentStatDefinition)
    (hb : itemDef.hash = bipodPerkHash) (hlen : len ≠ 4) :
    ∀ i, (processFrom itemDef len i l).1 = resolveFilteredList itemDef l ∧
      (l ≠ [] →
        LogEvent.warnBipodWorkaround ∈ (processFrom itemDef len i l).2) := by
  induction l with
  | nil => intro i; exact ⟨rfl, by simp⟩
  | cons a rest ih =>
    intro i
    have he : processEntry itemDef len i a =
        ((resolveAndFilterStat itemDef a).1,
          LogEvent.warnBipodWorkaround :: (resolveAndFilterStat itemDef a).2) := by
      unfold processEntry
      rw [if_pos hb, if_neg hlen]
    constructor
    · rw [processFrom, he]
      simp only [resolveFilteredList, List.filterMap_cons]
      cases hr : (resolveAndFilterStat itemDef a).1 with
      | none => simpa [hr] using (ih (i + 1)).1
      | some r => simpa [hr] using (ih (i + 1)).1
    · intro _
      rw [processFrom, he]
      simp

theorem processFrom_bipod4_drop (itemDef : DestinyInventoryItemDefinition)
    (l : List DestinyItemInvestmentStatDefinition)
    (hb : itemDef.hash = bipodPerkHash) :
    ∀ i, 2 ≤ i → processFrom itemDef 4 i l = ([], []) := by
  induction l with
  | nil => intro i _; rfl
  | cons a rest ih =>
    intro i hi
    have he : processEntry itemDef 4 i a = (none, []) := by
      unfold processEntry
      rw [if_pos hb, if_pos rfl, if_pos hi]
    rw [processFrom, he, ih (i + 1) (by omega)]
    simp

theorem processFrom_bipod4 (itemDef : DestinyInventoryItemDefinition)
    (l : List DestinyItemInvestmentStatDefinition)
    (hb : itemDef.hash = bipodPerkHash) :
    (processFrom itemDef 4 0 l).1 = resolveFilteredList itemDef (l.take 2) := by
  have he : ∀ i, i < 2 → ∀ a, processEntry itemDef 4 i a = resolveAndFilterStat itemDef a := by
    intro i hi a
    unfold processEntry
    rw [if_pos hb, if_pos rfl, if_neg (by omega)]
  match l with
  | [] => rfl
  | [a] =>
    rw [processFrom, he 0 (by omega)]
    simp only [List.take, resolveFilteredList, List.filterMap_cons, List.filterMap_nil]
    cases hr : (resolveAndFilterStat itemDef a).1 <;> simp [hr, processFrom]
  | a :: b :: rest =>
    rw [processFrom, he 0 (by omega), processFrom, he 1 (by omega),
      processFrom_bipod4_drop itemDef rest hb 2 (by omega)]
    simp only [List.take, resolveFilteredList, List.filterMap_cons, List.filterMap_nil]
    cases hr : (resolveAndFilterStat itemDef a).1 <;>
      cases hr2 : (resolveAndFilterStat itemDef b).1 <;> simp [hr, hr2]

theorem resolveAndFilterStat_hash_eq (itemDef : DestinyInventoryItemDefinition)
    (stat : DestinyItemInvestmentStatDefinition) (r : DimPlugInvestmentStat)
    (h : (resolveAndFilterStat itemDef stat).1 = some r) :
    r.statTypeHash = stat.statTypeHash := by
  unfold resolveAndFilterStat at h
  rw [apply_ite Prod.fst] at h
  split at h
  · exact absurd h (by simp)
  · injection h with h'
    subst h'
    rfl

theorem processEntry_hash_eq (itemDef : DestinyInventoryItemDefinition)
    (len i : Nat) (stat : DestinyItemInvestmentStatDefinition)
    (r : DimPlugInvestmentStat)
    (h : (processEntry itemDef len i stat).1 = some r) :
    r.statTypeHash = stat.statTypeHash := by
  unfold processEntry at h
  repeat' split at h
  all_goals
    first
    | exact resolveAndFilterStat_hash_eq itemDef stat r h
    | exact absurd h (by simp)

theorem rule_logs_sub (itemDef : DestinyInventoryItemDefinition)
    (stat : DestinyItemInvestmentStatDefinition) (e : LogEvent)
    (h : e ∈ (getPlugInvestmentStatActivityRule itemDef stat).2) :
    e = LogEvent.warnUnknownStatEffect := by
  unfold getPlugInvestmentStatActivityRule at h
  repeat' split at h
  all_goals simp_all

theorem processEntry_logs (itemDef : DestinyInventoryItemDefinition)
    (len i : Nat) (stat : DestinyItemInvestmentStatDefinition) (e : LogEvent)
    (h : e ∈ (processEntry itemDef len i stat).2) :
    e = LogEvent.warnUnknownStatEffect ∨ e = LogEvent.warnBipodWorkaround := by
  have hres : ∀ e, e ∈ (resolveAndFilterStat itemDef stat).2 →
      e = LogEvent.warnUnknownStatEffect := by
    intro e he
    unfold resolveAndFilterStat at he
    rw [apply_ite Prod.snd] at he
    split at he <;> exact rule_logs_sub itemDef stat e he
  unfold processEntry at h
  repeat' split at h
  all_goals
    first
    | exact Or.inl (hres e h)
    | (simp only [List.mem_cons] at h
       rcases h with h | h
       · exact Or.inr h
       · exact Or.inl (hres e h))
    | exact absurd h (by simp)

theorem processFrom_logs (itemDef : DestinyInventoryItemDefinition)
    (len : Nat) (l : List DestinyItemInvestmentStatDefinition) (e : LogEvent) :
    ∀ i, e ∈ (processFrom itemDef len i l).2 →
      e = LogEvent.warnUnknownStatEffect ∨ e = LogEvent.warnBipodWorkaround := by
  induction l with
  | nil => intro i h; exact absurd h (by simp [processFrom])
  | cons a rest ih =>
    intro i h
    rw [processFrom, List.mem_append] at h
    rcases h with h | h
    · exact processEntry_logs itemDef len i a e h
    · exact ih (i + 1) h

theorem processFrom_hash_sublist (itemDef : DestinyInventoryItemDefinition)
    (len : Nat) (l : List DestinyItemInvestmentStatDefinition) :
    ∀ i, ((processFrom itemDef len i l).1.map (fun s => s.statTypeHash)).Sublist
      (l.map (fun s => s.statTypeHash)) := by
  induction l with
  | nil => intro i; simp [processFrom]
  | cons a rest ih =>
    intro i
    rw [processFrom]
    cases hr : (processEntry itemDef len i a).1 with
    | none =>
      simp only [hr, Option.toList_none, List.nil_append]
      exact (ih (i + 1)).cons _
    | some r =>
      simp only [hr, Option.toList_some, List.singleton_append, List.map_cons,
        processEntry_hash_eq itemDef len i a r hr]
      exact (ih (i + 1)).cons₂ _

/-- C1 (amended): for a definition whose identifier is one of the two fixed
elemental-capacitor identifiers and which does not carry the exotic-catalyst
trait, the resolved activity rule is never-active exactly when the stat's
`isConditionallyActive` flag is set; when the flag is unset the rule is
`none` (always active), contrary to the claim's "regardless of the flag". -/
theorem c1_elemental_capacitor_rule (itemDef : DestinyInventoryItemDefinition)
    (stat : DestinyItemInvestmentStatDefinition)
    (hhash : itemDef.hash = elementalCapacitorHash ∨
      itemDef.hash = enhancedElementalCapacitorHash)
    (hcat : itemExoticCatalystTrait ∉ itemDef.traitHashes.getD []) :
    (getPlugInvestmentStatActivityRule itemDef stat).1 =
      if stat.isConditionallyActive then some PlugStatActivityRule.never
      else none := by
  unfold getPlugInvestmentStatActivityRule
  rw [if_neg hcat]
  cases hc : stat.isConditionallyActive with
  | false => simp [hc]
  | true =>
    rw [if_neg (by decide : ¬(!true) = true), if_pos (rfl : true = true)]
    by_cases hpc : itemDef.plugCategoryHash = some craftingEnhancersPlugCategory
    · rw [if_pos hpc]
    · rw [if_neg hpc, if_pos hhash]

/-- C1 counterexample: an elemental-capacitor definition together with a stat
entry whose conditional flag is unset resolves to the always-active rule,
not the never-active rule the claim predicts. -/
theorem c1_counterexample :
    c1CapacitorDef.hash = elementalCapacitorHash ∧
    (getPlugInvestmentStatActivityRule c1CapacitorDef
        { statTypeHash := 100, value := 5, isConditionallyActive := false }).1 ≠
      some PlugStatActivityRule.never := by decide

/-- C1 witness: the amended statement evaluated on a concrete
elemental-capacitor definition and a conditionally active stat entry. -/
theorem c1_witness :
    (getPlugInvestmentStatActivityRule c1CapacitorDef
        { statTypeHash := 100, value := 5, isConditionallyActive := true }).1 =
      some PlugStatActivityRule.never := by
  have h := c1_elemental_capacitor_rule c1CapacitorDef
    { statTypeHash := 100, value := 5, isConditionallyActive := true }
    (Or.inl rfl) (by decide)
  simpa using h

/-- C3: a definition carrying the exotic-catalyst trait tag resolves every
investment-stat entry to the masterwork-gated rule, regardless of the entry
(in particular of its `isConditionallyActive` flag): the trait check is the
first rung of the ladder. -/
theorem c3_exotic_catalyst_masterwork (itemDef : DestinyInventoryItemDefinition)
    (stat : DestinyItemInvestmentStatDefinition)
    (h : itemExoticCatalystTrait ∈ itemDef.traitHashes.getD []) :
    (getPlugInvestmentStatActivityRule itemDef stat).1 =
      some PlugStatActivityRule.masterwork := by
  unfold getPlugInvestmentStatActivityRule
  rw [if_pos h]

/-- C3 witness: the catalyst rule evaluated on a concrete definition whose
stat entry has the conditional flag unset. -/
theorem c3_witness :
    (getPlugInvestmentStatActivityRule c3CatalystDef
        { statTypeHash := 100, value := 3, isConditionallyActive := false }).1 =
      some PlugStatActivityRule.masterwork :=
  c3_exotic_catalyst_masterwork c3CatalystDef
    { statTypeHash := 100, value := 3, isConditionallyActive := false } (by decide)

/-- C6: for a class-gated rule, `isPlugStatActive` with no item and no
explicit class returns true and logs a warning (fail open); with an explicit
class, or an item supplying its class, it returns whether that class equals
the rule's class. -/
theorem c6_class_rule_fail_open (ruleClass : DestinyClass) :
    isPlugStatActive (some (PlugStatActivityRule.classType ruleClass)) none none =
      (true, [LogEvent.warnMissingClassType]) ∧
    (∀ item : Option DimItem, ∀ ct : DestinyClass,
      isPlugStatActive (some (PlugStatActivityRule.classType ruleClass)) item (some ct) =
        (decide (ct = ruleClass), [])) ∧
    (∀ it : DimItem,
      isPlugStatActive (some (PlugStatActivityRule.classType ruleClass)) (some it) none =
        (decide (it.classType = ruleClass), [])) := by
  refine ⟨rfl, fun item ct => ?_, fun it => rfl⟩
  cases item <;> rfl

/-- C2 (amended): the duplicate-consolidation pass is dead code.  `hasDupes`
is computed from the already-merged list (whose stat types are pairwise
distinct) and only on the fast path, so it is never `true`: the pass never
merges entries and never emits its consolidation or mismatched-rule log
events.  Raw duplicates are instead summed during the step-1 merge. -/
theorem c2_consolidation_pass_dead (itemDef : DestinyInventoryItemDefinition) :
    hasDupesComputed itemDef ≠ some true ∧
    LogEvent.infoConsolidating ∉ (mapAndFilterInvestmentStats itemDef).2 ∧
    LogEvent.warnDupMismatch ∉ (mapAndFilterInvestmentStats itemDef).2 := by
  refine ⟨hasDupesComputed_ne_true itemDef, ?_, ?_⟩ <;>
    cases hf : fastPathEligible itemDef
  · rw [mapAndFilter_full itemDef hf]
    intro hmem
    rcases processFrom_logs itemDef _ _ _ 0 hmem with h | h <;> exact absurd h (by simp)
  · rw [mapAndFilter_fast itemDef hf]
    simp
  · rw [mapAndFilter_full itemDef hf]
    intro hmem
    rcases processFrom_logs itemDef _ _ _ 0 hmem with h | h <;> exact absurd h (by simp)
  · rw [mapAndFilter_fast itemDef hf]
    simp

/-- C2 counterexample: a definition whose raw stats duplicate a stat type and
whose two raw entries resolve to different rules (always-active vs
adept-weapon-gated).  The claim predicts a consolidation pass that logs the
mismatched duplicate as unhandled; the code instead silently sums the raw
entries during the step-1 merge and logs nothing. -/
theorem c2_counterexample :
    ¬(c2DupDef.investmentStats.map (fun s => s.statTypeHash)).Nodup ∧
    (getPlugInvestmentStatActivityRule c2DupDef ⟨100, 5, false⟩).1 ≠
      (getPlugInvestmentStatActivityRule c2DupDef ⟨100, 7, true⟩).1 ∧
    (mapAndFilterInvestmentStats c2DupDef).2 = [] ∧
    (mapAndFilterInvestmentStats c2DupDef).1 =
      [{ activityRule := none, statTypeHash := 100, value := 12 }] := by decide

/-- C10: the elaborated stat list contains at most one entry per stat type on
both the fast path and the full path: all output `statTypeHash` values are
pairwise distinct. -/
theorem c10_output_stat_types_distinct (itemDef : DestinyInventoryItemDefinition) :
    ((mapAndFilterInvestmentStats itemDef).1.map (fun s => s.statTypeHash)).Nodup := by
  cases hf : fastPathEligible itemDef with
  | false =>
    rw [mapAndFilter_full itemDef hf]
    exact List.Nodup.sublist (processFrom_hash_sublist itemDef _ _ 0)
      (getPlugInvestmentStats_nodup _)
  | true =>
    rw [mapAndFilter_fast itemDef hf]
    simp only [List.map_map]
    exact getPlugInvestmentStats_nodup _

/-- C4 (amended): two raw entries of one stat type with values 5 and -3 are
merged into a single entry with value 2; the elaborated output is exactly
that entry, carrying its resolved rule, provided the merged entry does not
resolve to the never-active rule (in which case it is dropped and the output
is empty, contrary to the original claim). -/
theorem c4_two_entry_merge (itemDef : DestinyInventoryItemDefinition)
    (s1 s2 : DestinyItemInvestmentStatDefinition)
    (hstats : itemDef.investmentStats = [s1, s2])
    (hsame : s1.statTypeHash = s2.statTypeHash)
    (hv1 : s1.value = 5) (hv2 : s2.value = -3)
    (hnn : (getPlugInvestmentStatActivityRule itemDef { s1 with value := 2 }).1 ≠
      some PlugStatActivityRule.never) :
    (mapAndFilterInvestmentStats itemDef).1 =
      [{ activityRule :=
           (getPlugInvestmentStatActivityRule itemDef { s1 with value := 2 }).1,
         statTypeHash := s1.statTypeHash, value := 2 }] := by
  have hval : s1.value + s2.value = 2 := by rw [hv1, hv2]; norm_num
  have hmerged : getPlugInvestmentStats itemDef.investmentStats =
      [{ s1 with value := 2 }] := by
    rw [hstats]
    show addStatInto (addStatInto [] s1) s2 = _
    rw [show addStatInto [] s1 = [s1] from rfl]
    unfold addStatInto
    rw [if_pos hsame, hval]
  cases hf : fastPathEligible itemDef with
  | true =>
    have hf' := hf
    unfold fastPathEligible at hf'
    rw [hmerged] at hf'
    simp only [Bool.and_eq_true, Bool.not_eq_true', decide_eq_false_iff_not,
      List.all_cons, List.all_nil, Bool.and_true] at hf'
    rw [mapAndFilter_fast itemDef hf, hmerged]
    have hrule : (getPlugInvestmentStatActivityRule itemDef { s1 with value := 2 }).1 =
        none := by
      unfold getPlugInvestmentStatActivityRule
      rw [if_neg hf'.1, if_pos (by simp [hf'.2] : (!({ s1 with value := 2 } :
        DestinyItemInvestmentStatDefinition).isConditionallyActive) = true)]
    simp [toPlainStat, hrule]
  | false =>
    rw [mapAndFilter_full itemDef hf, hmerged]
    by_cases hb : itemDef.hash = bipodPerkHash
    · rw [(processFrom_bipod_ne4 itemDef _ _ hb (by simp) 0).1]
      simp [resolveFilteredList, resolveAndFilterStat, hnn]
    · rw [processFrom_stats_nonbipod itemDef _ _ hb 0]
      simp [resolveFilteredList, resolveAndFilterStat, hnn]

/-- C4 counterexample: an elemental-capacitor definition with exactly two raw
entries of one stat type carrying values 5 and -3 elaborates to an empty
list, not to a single entry with value 2: the merged entry resolves to the
never-active rule and is dropped. -/
theorem c4_counterexample :
    c4CapacitorDef.investmentStats.map (fun s => s.value) = [5, -3] ∧
    c4CapacitorDef.investmentStats.map (fun s => s.statTypeHash) = [100, 100] ∧
    (mapAndFilterInvestmentStats c4CapacitorDef).1 = [] := by decide

/-- C4 witness: the amended statement evaluated on a plain two-entry
definition; the merged single entry has value 2. -/
theorem c4_witness :
    (mapAndFilterInvestmentStats c4PlainDef).1 =
      [{ activityRule := (getPlugInvestmentStatActivityRule c4PlainDef
           { statTypeHash := 100, value := 2, isConditionallyActive := true }).1,
         statTypeHash := 100, value := 2 }] :=
  c4_two_entry_merge c4PlainDef ⟨100, 5, true⟩ ⟨100, -3, false⟩ rfl rfl rfl rfl
    (by decide)

/-- C5 (amended): for the Bipod identifier, when the full elaboration path
runs (the fast path does not apply): with exactly 4 merged entries the
entries at indices 2 and 3 are dropped and the first two are processed
normally; with any other count nothing is dropped by the workaround, and a
warning is logged provided at least one entry exists.  When the fast path
applies the workaround is skipped entirely (see the counterexample). -/
theorem c5_bipod_workaround (itemDef : DestinyInventoryItemDefinition)
    (hb : itemDef.hash = bipodPerkHash)
    (hfull : fastPathEligible itemDef = false) :
    ((getPlugInvestmentStats itemDef.investmentStats).length = 4 →
      (mapAndFilterInvestmentStats itemDef).1 =
        resolveFilteredList itemDef
          ((getPlugInvestmentStats itemDef.investmentStats).take 2)) ∧
    ((getPlugInvestmentStats itemDef.investmentStats).length ≠ 4 →
      (mapAndFilterInvestmentStats itemDef).1 =
        resolveFilteredList itemDef (getPlugInvestmentStats itemDef.investmentStats) ∧
      (getPlugInvestmentStats itemDef.investmentStats ≠ [] →
        LogEvent.warnBipodWorkaround ∈ (mapAndFilterInvestmentStats itemDef).2)) := by
  rw [mapAndFilter_full itemDef hfull]
  constructor
  · intro h4
    rw [h4]
    exact processFrom_bipod4 itemDef _ hb
  · intro h4
    exact ⟨(processFrom_bipod_ne4 itemDef _ _ hb h4 0).1,
      fun hne => (processFrom_bipod_ne4 itemDef _ _ hb h4 0).2 hne⟩

/-- C5 counterexample: a Bipod definition with exactly 4 merged entries, all
unconditionally active, takes the fast path: no entries are dropped (all four
remain) and no warning is logged, contrary to the claim's unconditional
"drops the latter half". -/
theorem c5_counterexample :
    c5FastBipodDef.hash = bipodPerkHash ∧
    (getPlugInvestmentStats c5FastBipodDef.investmentStats).length = 4 ∧
    (mapAndFilterInvestmentStats c5FastBipodDef).1.length = 4 ∧
    (mapAndFilterInvestmentStats c5FastBipodDef).2 = [] := by decide

/-- C5 witness: the amended statement evaluated on the Enhanced-Bipod shape
(four conditionally active merged entries): only the first two entries
survive. -/
theorem c5_witness :
    (mapAndFilterInvestmentStats c5CondBipodDef).1 =
      [{ activityRule := none, statTypeHash := 1, value := -25 },
       { activityRule := none, statTypeHash := 2, value := -15 }] := by
  have h := (c5_bipod_workaround c5CondBipodDef rfl (by decide)).1 (by decide)
  rw [h]
  decide

theorem stripLine_getD (used : List String) (line : Line) :
    (stripLine used line).lineText.getD [] =
      (line.lineText.getD []).filter (keepContent used) := by
  cases hl : line.lineText <;> simp [stripLine, hl]

/-- C7 (amended): stripping removes exactly the line contents rejected by the
used-string filter (a content survives iff its text is missing, empty, or not
among the official strings); the community insight is omitted iff every
line's filtered content list is empty.  A surviving content need not carry
any text, so "no unique text remains" alone does not omit the insight (see
the counterexample). -/
theorem c7_strip_used_strings (ci : Perk) (used : List String) (lines : List Line)
    (h : ci.simpleDescription = some lines) :
    (∀ line ∈ lines.map (stripLine used), ∀ c ∈ line.lineText.getD [],
      keepContent used c = true) ∧
    (stripUsedStrings ci used = none ↔
      ∀ line ∈ lines, (line.lineText.getD []).filter (keepContent used) = []) ∧
    (∀ p', stripUsedStrings ci used = some p' →
      p'.simpleDescription = some (lines.map (stripLine used))) := by
  refine ⟨?_, ?_, ?_⟩
  · intro line hline c hc
    obtain ⟨l0, _, rfl⟩ := List.mem_map.1 hline
    rw [stripLine_getD] at hc
    exact List.of_mem_filter hc
  · simp only [stripUsedStrings, h]
    have hany : ((lines.map (stripLine used)).any
          (fun line => !(line.lineText.getD []).isEmpty)) =
        lines.any (fun l => !((l.lineText.getD []).filter (keepContent used)).isEmpty) := by
      rw [List.any_map]
      congr 1
      funext l
      simp only [Function.comp, stripLine_getD]
    rw [hany]
    cases he : lines.any
        (fun l => !((l.lineText.getD []).filter (keepContent used)).isEmpty) with
    | true =>
      rw [if_pos rfl]
      constructor
      · intro hcontra
        exact absurd hcontra (by simp)
      · intro hall
        obtain ⟨l, hl, hne⟩ := List.any_eq_true.1 he
        simp [hall l hl] at hne
    | false =>
      rw [if_neg (by simp)]
      refine ⟨fun _ l hl => ?_, fun _ => rfl⟩
      have hf := (List.any_eq_false.1 he) l hl
      simpa using hf
  · intro p' hp'
    simp only [stripUsedStrings, h] at hp'
    split at hp'
    · injection hp' with hp''
      rw [← hp'']
    · exact absurd hp' (by simp)

/-- C7 counterexample: the official perk description is "Deals fire damage";
the community insight's only line holds that same text plus a text-less
content piece.  Stripping removes the duplicated text, leaving no text at
all in any line, yet the insight is NOT omitted: the text-less content keeps
the line non-empty, contrary to the claim's "if that stripping leaves no
unique text in any line, the whole community insight is omitted". -/
theorem c7_counterexample :
    (getPerkDescriptions c7OfficialPlug c7Defs).2 = ["Deals fire damage"] ∧
    stripUsedStrings c7Insight (getPerkDescriptions c7OfficialPlug c7Defs).2 =
      some { hash := 600, statOnly := false,
             simpleDescription := some [⟨some [⟨none⟩]⟩] } := by decide

/-- C7 witness: the amended omission criterion evaluated on a concrete
insight with one duplicated line and one unique line: the unique line keeps
the insight alive. -/
theorem c7_witness :
    stripUsedStrings c7WitnessInsight ["Deals fire damage"] ≠ none := by
  have h := (c7_strip_used_strings c7WitnessInsight ["Deals fire damage"] _ rfl).2.1
  intro hnone
  have hall := h.1 hnone
  have hline := hall ⟨some [⟨some "Unique community note"⟩]⟩ (by decide)
  exact absurd hline (by decide)

/-- C8: when the display preference is community-only and no community text
survives (no entry for the plug, a stat-only entry, or stripping leaves
nothing), `usePlugDescriptions` falls back to the official perk-description
entries and reports no community insight; with the community feature flag off
the official entries are shown anyway. -/
theorem c8_community_only_fallback (clarityFeature : Bool)
    (defs : D2ManifestDefinitions) (allClarity : Option (Nat → Option Perk))
    (plug : DestinyInventoryItemDefinition)
    (hsurvive : clarityLookup allClarity plug.hash = none ∨
      ∃ cp, clarityLookup allClarity plug.hash = some cp ∧
        (cp.statOnly = true ∨
          stripUsedStrings cp (getPerkDescriptions plug defs).2 = none)) :
    (usePlugDescriptions clarityFeature DescriptionsToDisplay.community (some defs)
        allClarity (some plug)).perks = (getPerkDescriptions plug defs).1 ∧
    (usePlugDescriptions clarityFeature DescriptionsToDisplay.community (some defs)
        allClarity (some plug)).communityInsight = none := by
  simp only [usePlugDescriptions]
  cases clarityFeature with
  | false => simp
  | true =>
    rcases hsurvive with hnone | ⟨cp, hcp, hrest⟩
    · rw [hnone]
      simp
    · rw [hcp]
      rcases hrest with hst | hstrip
      · simp [hst]
      · simp [hstrip]

/-- C8 witness: the fallback evaluated with the community feature on, the
community-only preference, and an empty community table. -/
theorem c8_witness :
    (usePlugDescriptions true DescriptionsToDisplay.community (some c8Defs)
        (some (fun _ => none)) (some c8Plug)).perks =
      (getPerkDescriptions c8Plug c8Defs).1 ∧
    (usePlugDescriptions true DescriptionsToDisplay.community (some c8Defs)
        (some (fun _ => none)) (some c8Plug)).communityInsight = none :=
  c8_community_only_fallback true c8Defs (some (fun _ => none)) c8Plug (Or.inl rfl)

/-- C9 (amended): for an armor-mods-category definition without the
exotic-catalyst trait (which takes priority and would turn the description
into a requirement footnote) and outside the Echo-of-Persistence special
case, with no perks and a non-empty description, `getPerkDescriptions`
returns exactly one entry carrying the description as functional text, with
no name and no requirement. -/
theorem c9_armor_mod_description (plug : DestinyInventoryItemDefinition)
    (defs : D2ManifestDefinitions)
    (hcat : itemExoticCatalystTrait ∉ plug.traitHashes.getD [])
    (harmor : armorModsCategoryHash ∈ plug.itemCategoryHashes.getD [])
    (hecho : plug.hash ≠ echoOfPersistenceHash)
    (hperks : plug.perks = [])
    (hdesc : plug.displayProperties.description ≠ "") :
    (getPerkDescriptions plug defs).1 =
      [{ perkHash := 0, name := none,
         description := some plug.displayProperties.description,
         requirement := none }] := by
  have haddperks : addPerkDescriptions plug defs ⟨[], []⟩ = ⟨[], []⟩ := by
    unfold addPerkDescriptions effectivePerks
    rw [hperks, if_neg hecho]
    rfl
  have hso : strOpt plug.displayProperties.description =
      some plug.displayProperties.description := by
    unfold strOpt
    rw [if_neg hdesc]
  simp only [getPerkDescriptions, if_neg hcat, if_pos harmor, haddperks, hso]
  simp [addDescriptionAsFunctionality, firstPerkFallback]

/-- C9 counterexample: a perk-less described definition carrying both the
armor-mods category and the exotic-catalyst trait: the catalyst branch wins
and the description is emitted as a requirement footnote, not as a
description entry, refuting the claim as stated for such definitions. -/
theorem c9_counterexample :
    armorModsCategoryHash ∈ c9CatalystArmorPlug.itemCategoryHashes.getD [] ∧
    c9CatalystArmorPlug.perks = [] ∧
    c9CatalystArmorPlug.displayProperties.description ≠ "" ∧
    (getPerkDescriptions c9CatalystArmorPlug c9Defs).1 =
      [{ perkHash := 0, name := none, description := none,
         requirement := some "Only active in raids" }] := by decide

/-- C9 witness: the amended statement evaluated on a concrete perk-less
armor mod. -/
theorem c9_witness :
    (getPerkDescriptions c9ArmorPlug c9Defs).1 =
      [{ perkHash := 0, name := none, description := some "Only active in raids",
         requirement := none }] :=
  c9_armor_mod_description c9ArmorPlug c9Defs (by decide) (by decide) (by decide)
    rfl (by decide)
